import Mathlib

/-
Verification of the KLayout align-tool plugin (pymacros/align_tool_plugin.py).

The development shallowly embeds the geometric feature-search engine and the
alignment resolver of the plugin.  Coordinates are integers (KLayout database
units).  The KLayout API primitives used by the plugin (pya.Box, pya.Edge with
`clipped`, `distance_abs`, `is_parallel`, `contains`, `center`) are modelled as
executable integer functions; Python floats produced by true division are
modelled as exact rationals realised by integer rounding helpers.  Python
runtime exceptions (attribute access on None, division by zero) are modelled by
an `Option` layer: a `none` result of a fallible function is an exception.
-/

namespace AlignTool

/-- Integer point (models pya.Point in database units). -/
structure Point where
  x : Int
  y : Int
deriving DecidableEq

/-- Axis-aligned box (models pya.Box). -/
structure Box where
  left : Int
  bottom : Int
  right : Int
  top : Int
deriving DecidableEq

/-- Line segment between two integer points (models pya.Edge). -/
structure Edge where
  p1 : Point
  p2 : Point
deriving DecidableEq

/-- Models pya.Box#contains: boundary-inclusive point containment. -/
def Box.contains (b : Box) (p : Point) : Bool :=
  decide (b.left ≤ p.x ∧ p.x ≤ b.right ∧ b.bottom ≤ p.y ∧ p.y ≤ b.top)

/-- Models pya.Edge#dx: x2 - x1. -/
def Edge.dx (e : Edge) : Int := e.p2.x - e.p1.x

/-- Models pya.Edge#dy: y2 - y1. -/
def Edge.dy (e : Edge) : Int := e.p2.y - e.p1.y

/-- Models pya.Edge#is_parallel: the direction vectors have zero cross product. -/
def Edge.is_parallel (e f : Edge) : Bool :=
  decide (e.dx * f.dy - e.dy * f.dx = 0)

/-- Squared Euclidean distance between two points.  Distance comparisons of the
Python code (which compares real square-root distances) are modelled by
comparing squared distances, which induces the same order. -/
def sqDist (p q : Point) : Int :=
  (p.x - q.x) * (p.x - q.x) + (p.y - q.y) * (p.y - q.y)

/-- Integer square root by downward search (only evaluated on small inputs in
this development; models the real-valued square root rounded down). -/
def isqrtGo (n : Nat) : Nat → Nat
  | 0 => 0
  | k + 1 => if (k + 1) * (k + 1) ≤ n then k + 1 else isqrtGo n k

def isqrt (n : Nat) : Nat := isqrtGo n n

/-- Round n / d (d > 0 intended) to the nearest integer, halves up. Models the
double-to-integer coordinate rounding of the KLayout API. -/
def roundDiv (n d : Int) : Int :=
  if d ≤ 2 * (n % d) then n / d + 1 else n / d

/-- Round n / d (d > 0 intended) to the nearest integer, halves to even.
Models Python 3 round() applied to the exact quotient. -/
def pyRoundDiv (n d : Int) : Int :=
  if 2 * (n % d) < d then n / d
  else if d < 2 * (n % d) then n / d + 1
  else if (n / d) % 2 = 0 then n / d else n / d + 1

/-- An exact rational clip parameter num/den with positive denominator. -/
structure Frac where
  num : Int
  den : Int
deriving DecidableEq

/-- Comparison of clip parameters (denominators positive). -/
def fleB (a b : Frac) : Bool := decide (a.num * b.den ≤ b.num * a.den)

def fmax (a b : Frac) : Frac := if fleB a b then b else a

def fmin (a b : Frac) : Frac := if fleB a b then a else b

/-- Liang-Barsky parameter range of a segment coordinate p + t*d against the
slab [lo, hi]; none when a degenerate coordinate lies outside the slab. -/
def axisRange (p d lo hi : Int) : Option (Frac × Frac) :=
  if d = 0 then (if lo ≤ p ∧ p ≤ hi then some (⟨0, 1⟩, ⟨1, 1⟩) else none)
  else if 0 < d then some (⟨lo - p, d⟩, ⟨hi - p, d⟩)
  else some (⟨p - hi, -d⟩, ⟨p - lo, -d⟩)

/-- Evaluate coordinate p + t*d at a clip parameter, rounding to the integer
grid. -/
def evalAt (p d : Int) (t : Frac) : Int := roundDiv (p * t.den + t.num * d) t.den

/-- Models pya.Edge#clipped: the part of the edge inside the box (endpoints
rounded to integer coordinates), or none when the edge misses the box. -/
def Edge.clipped (e : Edge) (b : Box) : Option Edge :=
  match axisRange e.p1.x e.dx b.left b.right, axisRange e.p1.y e.dy b.bottom b.top with
  | some (ax0, ax1), some (ay0, ay1) =>
    let t0 := fmax ⟨0, 1⟩ (fmax ax0 ay0)
    let t1 := fmin ⟨1, 1⟩ (fmin ax1 ay1)
    if fleB t0 t1 then
      some ⟨⟨evalAt e.p1.x e.dx t0, evalAt e.p1.y e.dy t0⟩,
            ⟨evalAt e.p1.x e.dx t1, evalAt e.p1.y e.dy t1⟩⟩
    else none
  | _, _ => none

/-- Models pya.Edge#distance_abs: absolute distance of a point from the edge;
for a degenerate edge the Euclidean distance to its point, otherwise the
distance from the carrying line (cross product over length), rounded down. -/
def Edge.distance_abs (e : Edge) (p : Point) : Int :=
  if e.p1 = e.p2 then Int.ofNat (isqrt (sqDist e.p1 p).toNat)
  else
    Int.ofNat ((e.dx * (p.y - e.p1.y) - e.dy * (p.x - e.p1.x)).natAbs /
               isqrt (sqDist e.p1 e.p2).toNat)

/-- Models halfway of the source fused with the pya.Point float-to-int
rounding: the Python helper returns a + (b-a)/2 (respectively b + (a-b)/2)
with float division; constructing a pya.Point rounds the half to an integer. -/
def halfUp (d : Int) : Int := if d % 2 = 0 then d / 2 else d / 2 + 1

def halfway (a b : Int) : Int :=
  if a < b then a + halfUp (b - a) else b + halfUp (a - b)

/-- Models pya.Box#center (midpoint of the diagonal, rounded). -/
def Box.center (b : Box) : Point := ⟨halfway b.left b.right, halfway b.bottom b.top⟩

/-- The center point built by find_nearest_edge_point from an edge. -/
def edge_center (e : Edge) : Point := ⟨halfway e.p1.x e.p2.x, halfway e.p1.y e.p2.y⟩

/-- Squared form of the source's initial nearest_distance = 9999999999. -/
def sentinelSq : Int := 9999999999 * 9999999999

/-- find_nearest_edge_point of the source: scan [center, p1, p2] keeping the
first strict improvement over the running best distance (initially the
sentinel).  A `none` result models the Python path in which nearest_point
stays None (all distances at least the sentinel), which makes the caller
raise. -/
def find_nearest_edge_point (location : Point) (edge : Edge) : Option Point :=
  (([edge_center edge, edge.p1, edge.p2]).foldl
    (fun acc p => if sqDist p location < acc.2 then (some p, sqDist p location) else acc)
    ((none : Option Point), sentinelSq)).1

/-- The polymorphic value stored in the `shape` field of a selection: the
instance pass stores the instance bounding box (a pya.Box), the shape pass
stores the shape handle. -/
inductive ShapeVal where
  | ofBox (b : Box)
  | ofShape (id : Nat)
deriving DecidableEq

/-- AlignToolSelection of the source.  `path` is the chain of instance ids
from the top cell (outermost first), `bbox_of_instance` the instance id when
the feature derives from an instance bounding box, `layer` the layer index. -/
structure Selection where
  location : Point
  search_box : Box
  edge : Option Edge
  path : List Nat
  shape : Option ShapeVal
  bbox_of_instance : Option Nat
  layer : Option Nat
  snap_point : Option Point
deriving DecidableEq

/-- consider_edge_selection of the source.  The result is none when the Python
code would raise (attribute access on a None edge or a None old clip). -/
def consider_edge_selection (location : Point) (search_box : Box)
    (nearest selection : Selection) : Option Selection :=
  match selection.edge with
  | none => none
  | some se =>
    match se.clipped search_box with
    | none => some nearest
    | some intersection =>
      match nearest.edge with
      | none => some selection
      | some ne =>
        match ne.clipped search_box with
        | none => none
        | some old_intersection =>
          if intersection.distance_abs location < old_intersection.distance_abs location
          then some selection
          else some nearest

/-- A transformee object: an instance or the (possibly None) shape stored in a
selection. -/
inductive Obj where
  | ofInst (id : Nat)
  | ofShape (s : Option ShapeVal)
deriving DecidableEq

/-- Observable actions of commit_align, in program order. -/
inductive Ev where
  | warning
  | deactivate
  | txnBegin
  | transform (dx dy : Int) (t : Obj)
  | txnCommit
deriving DecidableEq

/-- The transformee set chosen by commit_align: a non-empty pre-selection is
used verbatim; otherwise an empty path selects the shape (or its owning
instance for an instance-bbox feature) and a non-empty path selects the
outermost instance. -/
def transformees_of (pre : List Obj) (s1 : Selection) : List Obj :=
  if 1 ≤ pre.length then pre
  else
    match s1.path with
    | [] =>
      match s1.bbox_of_instance with
      | none => [Obj.ofShape s1.shape]
      | some i => [Obj.ofInst i]
    | p0 :: _ => [Obj.ofInst p0]

/-- Snap one offset component to the technology grid: round(d / grid) * grid. -/
def snap_offset (grid_dbu d : Int) : Int := pyRoundDiv d grid_dbu * grid_dbu

/-- The event trace of the transaction block of commit_align. -/
def apply_trace (dx dy : Int) (ts : List Obj) : List Ev :=
  Ev.txnBegin :: (ts.map (fun t => Ev.transform dx dy t) ++ [Ev.txnCommit, Ev.deactivate])

/-- commit_align of the source, as the event trace it produces.  `grid_dbu`
is the externally supplied technology grid in database units; a zero grid
makes the Python division raise (modelled as none), and the early return for
non-parallel edges produces only a warning and the deactivation. -/
def commit_align (pre : List Obj) (grid_dbu : Int) (s1 s2 : Selection) : Option (List Ev) :=
  let finish : Int → Int → Option (List Ev) := fun dx dy =>
    if grid_dbu = 0 then none
    else some (apply_trace (snap_offset grid_dbu dx) (snap_offset grid_dbu dy)
                           (transformees_of pre s1))
  match s1.snap_point, s2.snap_point with
  | some q1, some q2 => finish (q2.x - q1.x) (q2.y - q1.y)
  | some q1, none =>
    match s2.edge with
    | none => none
    | some edge2 =>
      if edge2.dy = 0 then finish 0 (edge2.p1.y - q1.y)
      else if edge2.dx = 0 then finish (edge2.p1.x - q1.x) 0
      else finish 0 0
  | none, some q2 =>
    match s1.edge with
    | none => none
    | some edge1 =>
      if edge1.dy = 0 then finish 0 (q2.y - edge1.p1.y)
      else if edge1.dx = 0 then finish (q2.x - edge1.p1.x) 0
      else finish 0 0
  | none, none =>
    match s1.edge, s2.edge with
    | some edge1, some edge2 =>
      if edge1.is_parallel edge2 then
        if edge1.dy = 0 then finish 0 (edge2.p1.y - edge1.p1.y)
        else if edge1.dx = 0 then finish (edge2.p1.x - edge1.p1.x) 0
        else finish 0 0
      else some [Ev.warning, Ev.deactivate]
    | _, _ => none

/-- An instance yielded by the recursive overlapping-instance iterator:
whether its cell is hidden in the view, its bounding box transformed into top
cell coordinates, its instance path (outermost first) and its id. -/
structure InstItem where
  instId : Nat
  hidden : Bool
  path : List Nat
  bbox : Box
deriving DecidableEq

/-- A polygon already transformed into top cell coordinates: its edges in
traversal order and its bounding box. -/
structure Poly where
  edges : List Edge
  bbox : Box
deriving DecidableEq

/-- A shape yielded by the recursive overlapping-shape iterator; `polygon` is
none for shapes without a polygon representation. -/
structure ShapeItem where
  shapeId : Nat
  path : List Nat
  polygon : Option Poly
deriving DecidableEq

/-- One visible layer together with the shapes its iterator yields, in order. -/
structure LayerPass where
  lyr : Nat
  shapes : List ShapeItem
deriving DecidableEq

/-- A user-drawn ruler: either a box outline or a sequence of points. -/
inductive Ann where
  | boxOutline (b : Box)
  | pointsOutline (pts : List Point)
deriving DecidableEq

/-- The scene state find_selection queries: whether the top cell is hidden,
whether at least one hierarchy level is shown (view.max_hier_levels >= 1),
the instance stream, the visible layers with their shape streams, and the
rulers. -/
structure Scene where
  topHidden : Bool
  hierVisible : Bool
  insts : List InstItem
  layers : List LayerPass
  rulers : List Ann
deriving DecidableEq

/-- The four edges of a box, as produced by pya.Edges / pya.Polygon on a box. -/
def boxEdges (b : Box) : List Edge :=
  [⟨⟨b.left, b.bottom⟩, ⟨b.left, b.top⟩⟩,
   ⟨⟨b.left, b.top⟩, ⟨b.right, b.top⟩⟩,
   ⟨⟨b.right, b.top⟩, ⟨b.right, b.bottom⟩⟩,
   ⟨⟨b.right, b.bottom⟩, ⟨b.left, b.bottom⟩⟩]

/-- The search box of a query: the square of half-width max_distance centered
on the location. -/
def searchBoxOf (location : Point) (max_distance : Int) : Box :=
  ⟨location.x - max_distance, location.y - max_distance,
   location.x + max_distance, location.y + max_distance⟩

/-- The sentinel accumulator find_selection starts from ("no candidate yet"). -/
def initSelection (location : Point) (search_box : Box) : Selection :=
  ⟨location, search_box, none, [], none, none, none, none⟩

/-- An instance bounding-box edge candidate (snap point set later). -/
def instEdgeSel (location : Point) (search_box : Box) (it : InstItem) (e : Edge) : Selection :=
  ⟨location, search_box, some e, it.path, some (ShapeVal.ofBox it.bbox),
   some it.instId, none, none⟩

/-- The instance bounding-box midpoint candidate (degenerate edge, snap point
preset to the midpoint). -/
def instMidSel (location : Point) (search_box : Box) (it : InstItem) (mid : Point) : Selection :=
  ⟨location, search_box, some ⟨mid, mid⟩, it.path, some (ShapeVal.ofBox it.bbox),
   some it.instId, none, some mid⟩

/-- A polygon edge candidate of the shape pass, carrying the layer index. -/
def shapeEdgeSel (location : Point) (search_box : Box) (lyr : Nat) (sh : ShapeItem)
    (e : Edge) : Selection :=
  ⟨location, search_box, some e, sh.path, some (ShapeVal.ofShape sh.shapeId),
   none, some lyr, none⟩

/-- The polygon bounding-box midpoint candidate of the shape pass; the source
registers it with layer=None. -/
def shapeMidSel (location : Point) (search_box : Box) (sh : ShapeItem) (mid : Point) : Selection :=
  ⟨location, search_box, some ⟨mid, mid⟩, sh.path, some (ShapeVal.ofShape sh.shapeId),
   none, none, some mid⟩

/-- A ruler box-outline edge candidate. -/
def annEdgeSel (location : Point) (search_box : Box) (e : Edge) : Selection :=
  ⟨location, search_box, some e, [], none, none, none, none⟩

/-- A ruler point candidate (degenerate edge at the point). -/
def annPointSel (location : Point) (search_box : Box) (p : Point) : Selection :=
  ⟨location, search_box, some ⟨p, p⟩, [], none, none, none, some p⟩

/-- Feed a list of candidates through consider_edge_selection, threading the
exception layer. -/
def considerAll (location : Point) (search_box : Box) :
    List Selection → Selection → Option Selection
  | [], nearest => some nearest
  | c :: cs, nearest =>
    match consider_edge_selection location search_box nearest c with
    | none => none
    | some n' => considerAll location search_box cs n'

/-- The candidates one visible instance contributes: its bounding-box edges
whose clip against the search box is non-empty, then the bbox midpoint. -/
def instCands (location : Point) (search_box : Box) (it : InstItem) : List Selection :=
  ((boxEdges it.bbox).filter (fun e => (e.clipped search_box).isSome)).map
    (instEdgeSel location search_box it)
  ++ [instMidSel location search_box it it.bbox.center]

/-- One step of the instance pass: hidden instances contribute nothing. -/
def processInst (location : Point) (search_box : Box) (it : InstItem)
    (nearest : Selection) : Option Selection :=
  if it.hidden then some nearest
  else considerAll location search_box (instCands location search_box it) nearest

/-- The candidates one polygon contributes: every polygon edge (the clip test
is left to consider_edge_selection here), then the polygon bbox midpoint. -/
def shapeCands (location : Point) (search_box : Box) (lyr : Nat) (sh : ShapeItem)
    (poly : Poly) : List Selection :=
  poly.edges.map (shapeEdgeSel location search_box lyr sh)
  ++ [shapeMidSel location search_box sh poly.bbox.center]

/-- One step of the shape pass of a layer: shapes without a polygon are
skipped. -/
def processShape (location : Point) (search_box : Box) (lyr : Nat) (sh : ShapeItem)
    (nearest : Selection) : Option Selection :=
  match sh.polygon with
  | none => some nearest
  | some poly => considerAll location search_box (shapeCands location search_box lyr sh poly) nearest

/-- The hard per-pass iteration cap of find_selection. -/
def iteration_limit : Nat := 1000

/-- The while-loop shared by the instance pass and each layer's shape pass:
process an element, bump the counter, and break once it reaches the cap. -/
def cappedLoop {α : Type} (f : α → Selection → Option Selection) :
    List α → Nat → Selection → Option Selection
  | [], _, nearest => some nearest
  | a :: rest, i, nearest =>
    match f a nearest with
    | none => none
    | some n' => if iteration_limit ≤ i + 1 then some n' else cappedLoop f rest (i + 1) n'

/-- The per-layer loop of the shape pass (no cap across layers). -/
def layersLoop (location : Point) (search_box : Box) :
    List LayerPass → Selection → Option Selection
  | [], nearest => some nearest
  | L :: rest, nearest =>
    match cappedLoop (processShape location search_box L.lyr) L.shapes 0 nearest with
    | none => none
    | some n' => layersLoop location search_box rest n'

/-- The candidates one ruler contributes: for a box outline the box edges with
non-empty clip, otherwise the defining points inside the search box. -/
def annCands (location : Point) (search_box : Box) : Ann → List Selection
  | Ann.boxOutline b =>
    ((boxEdges b).filter (fun e => (e.clipped search_box).isSome)).map
      (annEdgeSel location search_box)
  | Ann.pointsOutline pts =>
    (pts.filter (fun p => search_box.contains p)).map (annPointSel location search_box)

/-- The ruler pass (uncapped). -/
def annLoop (location : Point) (search_box : Box) :
    List Ann → Selection → Option Selection
  | [], nearest => some nearest
  | a :: rest, nearest =>
    match considerAll location search_box (annCands location search_box a) nearest with
    | none => none
    | some n' => annLoop location search_box rest n'

/-- The snap-point refinement tail of find_selection: no candidate yields the
no-result, otherwise the nearest point of the winning edge is computed and
installed as snap point exactly when it lies inside the search box. -/
def finalize (location : Point) (search_box : Box) (n3 : Selection) : Option (Option Selection) :=
  match n3.edge with
  | none => some none
  | some e =>
    match find_nearest_edge_point location e with
    | none => none
    | some np =>
      if search_box.contains np then some (some { n3 with snap_point := some np })
      else some (some n3)

/-- find_selection of the source over a scene: instance pass, shape pass per
visible layer, optional ruler pass, then snap-point refinement.  The outer
Option is the exception layer, the inner Option the no-result outcome. -/
def find_selection (scene : Scene) (location : Point) (max_distance : Int)
    (consider_rulers : Bool) : Option (Option Selection) :=
  if scene.topHidden then some none
  else
    ((if scene.hierVisible
      then cappedLoop (processInst location (searchBoxOf location max_distance))
             scene.insts 0 (initSelection location (searchBoxOf location max_distance))
      else some (initSelection location (searchBoxOf location max_distance))).bind
      (fun n1 =>
        ((if scene.hierVisible
          then layersLoop location (searchBoxOf location max_distance) scene.layers n1
          else some n1).bind
          (fun n2 =>
            ((if consider_rulers
              then annLoop location (searchBoxOf location max_distance) scene.rulers n2
              else some n2).bind
              (fun n3 => finalize location (searchBoxOf location max_distance) n3))))))

/-! ### Helper lemmas -/

lemma halfway_between (a b : Int) :
    min a b ≤ halfway a b ∧ halfway a b ≤ max a b := by
  unfold halfway halfUp
  split_ifs <;> omega

lemma halfway_self (a : Int) : halfway a a = a := by
  unfold halfway halfUp
  split_ifs <;> omega

/-- KLayout coordinates are 32-bit integers; every pya.Point the plugin sees
satisfies this range. -/
def inCoordRange (p : Point) : Prop :=
  -2147483648 ≤ p.x ∧ p.x ≤ 2147483648 ∧ -2147483648 ≤ p.y ∧ p.y ≤ 2147483648

instance (p : Point) : Decidable (inCoordRange p) := by
  unfold inCoordRange
  infer_instance

lemma sq_le_of_range {z B : Int} (h1 : -B ≤ z) (h2 : z ≤ B) : z * z ≤ B * B := by
  nlinarith [mul_nonneg (by omega : (0 : Int) ≤ B - z) (by omega : (0 : Int) ≤ B + z)]

/-- Within the 32-bit coordinate range no squared distance reaches the squared
sentinel distance of find_nearest_edge_point. -/
lemma sqDist_lt_sentinelSq {p q : Point} (hp : inCoordRange p) (hq : inCoordRange q) :
    sqDist p q < sentinelSq := by
  obtain ⟨hp1, hp2, hp3, hp4⟩ := hp
  obtain ⟨hq1, hq2, hq3, hq4⟩ := hq
  have hx : (p.x - q.x) * (p.x - q.x) ≤ 4294967296 * 4294967296 :=
    sq_le_of_range (by omega) (by omega)
  have hy : (p.y - q.y) * (p.y - q.y) ≤ 4294967296 * 4294967296 :=
    sq_le_of_range (by omega) (by omega)
  unfold sqDist sentinelSq
  omega

lemma edge_center_range {e : Edge} (h2 : inCoordRange e.p1) (h3 : inCoordRange e.p2) :
    inCoordRange (edge_center e) := by
  obtain ⟨a1, a2, a3, a4⟩ := h2
  obtain ⟨b1, b2, b3, b4⟩ := h3
  have hx := halfway_between e.p1.x e.p2.x
  have hy := halfway_between e.p1.y e.p2.y
  exact ⟨by simp [edge_center]; omega, by simp [edge_center]; omega,
         by simp [edge_center]; omega, by simp [edge_center]; omega⟩

/-- C3: find_nearest_edge_point returns the first element of
[center, p1, p2] of minimum distance to the location (so an exact
midpoint/endpoint tie yields the midpoint).  The coordinate-range hypotheses
reflect KLayout's 32-bit coordinates, under which the initial sentinel
distance 9999999999 is unreachable. -/
theorem find_nearest_edge_point_first_min (location : Point) (edge : Edge)
    (h1 : inCoordRange location) (h2 : inCoordRange edge.p1) (h3 : inCoordRange edge.p2) :
    find_nearest_edge_point location edge =
      some (if sqDist (edge_center edge) location ≤ sqDist edge.p1 location ∧
               sqDist (edge_center edge) location ≤ sqDist edge.p2 location
            then edge_center edge
            else if sqDist edge.p1 location ≤ sqDist edge.p2 location
                 then edge.p1 else edge.p2) ∧
    (sqDist (edge_center edge) location = sqDist edge.p1 location →
     sqDist (edge_center edge) location ≤ sqDist edge.p2 location →
     find_nearest_edge_point location edge = some (edge_center edge)) := by
  have hc : inCoordRange (edge_center edge) := edge_center_range h2 h3
  have hdc : sqDist (edge_center edge) location < sentinelSq := sqDist_lt_sentinelSq hc h1
  have hmain : find_nearest_edge_point location edge =
      some (if sqDist (edge_center edge) location ≤ sqDist edge.p1 location ∧
               sqDist (edge_center edge) location ≤ sqDist edge.p2 location
            then edge_center edge
            else if sqDist edge.p1 location ≤ sqDist edge.p2 location
                 then edge.p1 else edge.p2) := by
    simp only [find_nearest_edge_point, List.foldl_cons, List.foldl_nil]
    split_ifs <;> simp_all <;> omega
  refine ⟨hmain, fun he hle => ?_⟩
  rw [hmain, if_pos ⟨le_of_eq he, hle⟩]

/-- Witness for C3 at a concrete edge and location. -/
theorem find_nearest_edge_point_first_min_witness :
    find_nearest_edge_point ⟨5, 3⟩ ⟨⟨0, 0⟩, ⟨10, 0⟩⟩ = some ⟨5, 0⟩ := by
  have h := find_nearest_edge_point_first_min ⟨5, 3⟩ ⟨⟨0, 0⟩, ⟨10, 0⟩⟩
    (by decide) (by decide) (by decide)
  rw [h.1]
  decide

/-- C1: a new candidate whose clip against the search box is non-empty
replaces the current best exactly when no best exists yet or its clipped
distance to the location is strictly smaller; on an equal clipped distance
the earlier-registered best is kept. -/
theorem consider_edge_selection_replacement (location : Point) (search_box : Box)
    (nearest selection : Selection) (se i : Edge)
    (h1 : selection.edge = some se) (h2 : se.clipped search_box = some i) :
    (nearest.edge = none →
      consider_edge_selection location search_box nearest selection = some selection) ∧
    (∀ ne oi, nearest.edge = some ne → ne.clipped search_box = some oi →
      consider_edge_selection location search_box nearest selection =
        some (if i.distance_abs location < oi.distance_abs location
              then selection else nearest)) := by
  constructor
  · intro hn
    simp [consider_edge_selection, h1, h2, hn]
  · intro ne oi hne hoi
    simp only [consider_edge_selection, h1, h2, hne, hoi]
    split_ifs <;> rfl

def cselNear : Selection :=
  ⟨⟨0, 0⟩, ⟨-10, -10, 10, 10⟩, some ⟨⟨0, 5⟩, ⟨0, 5⟩⟩, [], none, none, none, some ⟨0, 5⟩⟩

def cselNew : Selection :=
  ⟨⟨0, 0⟩, ⟨-10, -10, 10, 10⟩, some ⟨⟨0, 3⟩, ⟨0, 3⟩⟩, [], none, none, none, some ⟨0, 3⟩⟩

/-- Witness for C1: a strictly nearer candidate replaces the best. -/
theorem consider_edge_selection_replacement_witness :
    consider_edge_selection ⟨0, 0⟩ ⟨-10, -10, 10, 10⟩ cselNear cselNew = some cselNew := by
  have h := (consider_edge_selection_replacement ⟨0, 0⟩ ⟨-10, -10, 10, 10⟩ cselNear cselNew
      ⟨⟨0, 3⟩, ⟨0, 3⟩⟩ ⟨⟨0, 3⟩, ⟨0, 3⟩⟩ rfl (by decide)).2
      ⟨⟨0, 5⟩, ⟨0, 5⟩⟩ ⟨⟨0, 5⟩, ⟨0, 5⟩⟩ rfl (by decide)
  rw [h]
  decide

lemma snap_offset_zero {g : Int} (hg : 0 < g) : snap_offset g 0 = 0 := by
  unfold snap_offset pyRoundDiv
  rw [Int.zero_emod, Int.zero_ediv]
  rw [if_pos (by omega : 2 * (0 : Int) < g), zero_mul]

/-- C4 (amended): on two edge-like selections with non-parallel edges,
commit_align emits exactly the warning and the deactivation: no transformee
is transformed, and no transaction is opened at all on this early-return path
(so none is left open); in particular the commit of the transaction block is
never reached. -/
theorem commit_align_nonparallel_aborts (pre : List Obj) (grid_dbu : Int)
    (s1 s2 : Selection) (e1 e2 : Edge)
    (h1 : s1.snap_point = none) (h2 : s2.snap_point = none)
    (he1 : s1.edge = some e1) (he2 : s2.edge = some e2)
    (hnp : e1.is_parallel e2 = false) :
    commit_align pre grid_dbu s1 s2 = some [Ev.warning, Ev.deactivate] ∧
    Ev.warning ∈ [Ev.warning, Ev.deactivate] ∧
    Ev.deactivate ∈ [Ev.warning, Ev.deactivate] ∧
    (∀ dx dy t, Ev.transform dx dy t ∉ [Ev.warning, Ev.deactivate]) ∧
    Ev.txnBegin ∉ [Ev.warning, Ev.deactivate] ∧
    Ev.txnCommit ∉ [Ev.warning, Ev.deactivate] := by
  refine ⟨?_, by decide, by decide, by intro dx dy t h; simp at h, by decide, by decide⟩
  simp [commit_align, h1, h2, he1, he2, hnp]

def nonparS1 : Selection :=
  ⟨⟨0, 0⟩, ⟨-10, -10, 10, 10⟩, some ⟨⟨0, 0⟩, ⟨10, 0⟩⟩, [], none, none, none, none⟩

def nonparS2 : Selection :=
  ⟨⟨0, 0⟩, ⟨-10, -10, 10, 10⟩, some ⟨⟨0, 0⟩, ⟨0, 10⟩⟩, [], none, none, none, none⟩

/-- Counterexample for C4 as stated: on the non-parallel early-return path no
transaction commit (and no transaction begin) is ever executed — the early
return precedes the transaction block, so "the transaction is closed on this
exit path" does not describe this path; nothing is opened or committed. -/
theorem commit_align_nonparallel_no_commit_call :
    commit_align [] 1 nonparS1 nonparS2 = some [Ev.warning, Ev.deactivate] ∧
    Ev.txnCommit ∉ [Ev.warning, Ev.deactivate] ∧
    Ev.txnBegin ∉ [Ev.warning, Ev.deactivate] := by
  decide

/-- Witness for C4. -/
theorem commit_align_nonparallel_aborts_witness :
    commit_align [] 1 nonparS1 nonparS2 = some [Ev.warning, Ev.deactivate] :=
  (commit_align_nonparallel_aborts [] 1 nonparS1 nonparS2
    ⟨⟨0, 0⟩, ⟨10, 0⟩⟩ ⟨⟨0, 0⟩, ⟨0, 10⟩⟩ rfl rfl rfl rfl (by decide)).1

/-- C5: a non-empty pre-selection is the transformee set verbatim; with an
empty pre-selection, an empty path selects the feature's shape (or its owning
instance for an instance-bbox feature) and a non-empty path selects its
outermost instance. -/
theorem transformees_precedence (pre : List Obj) (s1 : Selection) :
    (pre ≠ [] → transformees_of pre s1 = pre) ∧
    (pre = [] → s1.path = [] → s1.bbox_of_instance = none →
      transformees_of pre s1 = [Obj.ofShape s1.shape]) ∧
    (pre = [] → s1.path = [] → ∀ i, s1.bbox_of_instance = some i →
      transformees_of pre s1 = [Obj.ofInst i]) ∧
    (pre = [] → ∀ p0 rest, s1.path = p0 :: rest → transformees_of pre s1 = [Obj.ofInst p0]) := by
  refine ⟨?_, ?_, ?_, ?_⟩
  · intro h
    unfold transformees_of
    rw [if_pos (by have := List.length_pos.mpr h; omega : 1 ≤ pre.length)]
  · intro h hpath hbb
    subst h
    simp [transformees_of, hpath, hbb]
  · intro h hpath i hbb
    subst h
    simp [transformees_of, hpath, hbb]
  · intro h p0 rest hpath
    subst h
    simp [transformees_of, hpath]

/-- Witness for C5: non-empty pre-selection wins. -/
theorem transformees_precedence_witness :
    transformees_of [Obj.ofInst 3] nonparS1 = [Obj.ofInst 3] :=
  (transformees_precedence [Obj.ofInst 3] nonparS1).1 (by decide)

/-- C6: with two point-like selections the raw offset is the componentwise
difference of the snap points and the applied offset snaps each component to
the grid via round(d / grid) * grid. -/
theorem commit_align_point_point_offset (pre : List Obj) (grid_dbu : Int)
    (s1 s2 : Selection) (q1 q2 : Point)
    (h1 : s1.snap_point = some q1) (h2 : s2.snap_point = some q2)
    (hg : grid_dbu ≠ 0) :
    commit_align pre grid_dbu s1 s2 =
      some (apply_trace (snap_offset grid_dbu (q2.x - q1.x))
                        (snap_offset grid_dbu (q2.y - q1.y))
                        (transformees_of pre s1)) := by
  simp [commit_align, h1, h2, hg]

def ppS1 : Selection :=
  ⟨⟨10, 10⟩, ⟨0, 0, 20, 20⟩, some ⟨⟨10, 10⟩, ⟨10, 10⟩⟩, [],
   some (ShapeVal.ofShape 1), none, none, some ⟨10, 10⟩⟩

def ppS2 : Selection :=
  ⟨⟨13, 17⟩, ⟨3, 7, 23, 27⟩, some ⟨⟨13, 17⟩, ⟨13, 17⟩⟩, [], none, none, none, some ⟨13, 17⟩⟩

/-- Witness for C6: snap points (10,10) and (13,17) give raw offset (3,7),
snapped with grid 5 to (5,5). -/
theorem commit_align_point_point_offset_witness :
    commit_align [] 5 ppS1 ppS2 =
      some [Ev.txnBegin, Ev.transform 5 5 (Obj.ofShape (some (ShapeVal.ofShape 1))),
            Ev.txnCommit, Ev.deactivate] ∧
    ((13 : Int) - 10, (17 : Int) - 10) = ((3 : Int), (7 : Int)) ∧
    snap_offset 5 3 = 5 ∧ snap_offset 5 7 = 5 := by
  refine ⟨?_, by decide, by decide, by decide⟩
  have h := commit_align_point_point_offset [] 5 ppS1 ppS2 ⟨10, 10⟩ ⟨13, 17⟩ rfl rfl (by decide)
  rw [h]
  decide

/-- C7: in the two mixed cases (point-like vs edge-like) a diagonal edge
(dx and dy both non-zero) matches no branch, the offset stays (0,0), and the
transaction applies the identity translation to the transformees. -/
theorem commit_align_mixed_diagonal_identity (pre : List Obj) (grid_dbu : Int)
    (s1 s2 : Selection) (hg : 0 < grid_dbu) :
    (∀ q1 e2, s1.snap_point = some q1 → s2.snap_point = none → s2.edge = some e2 →
      e2.dy ≠ 0 → e2.dx ≠ 0 →
      commit_align pre grid_dbu s1 s2 = some (apply_trace 0 0 (transformees_of pre s1))) ∧
    (∀ q2 e1, s1.snap_point = none → s2.snap_point = some q2 → s1.edge = some e1 →
      e1.dy ≠ 0 → e1.dx ≠ 0 →
      commit_align pre grid_dbu s1 s2 = some (apply_trace 0 0 (transformees_of pre s1))) := by
  constructor
  · intro q1 e2 h1 h2 he2 hdy hdx
    simp [commit_align, h1, h2, he2, hdy, hdx, hg.ne', snap_offset_zero hg]
  · intro q2 e1 h1 h2 he1 hdy hdx
    simp [commit_align, h1, h2, he1, hdy, hdx, hg.ne', snap_offset_zero hg]

def diagEdgeS2 : Selection :=
  ⟨⟨0, 0⟩, ⟨-10, -10, 10, 10⟩, some ⟨⟨0, 0⟩, ⟨10, 7⟩⟩, [], none, none, none, none⟩

/-- Witness for C7: a diagonal target edge yields the identity translation. -/
theorem commit_align_mixed_diagonal_identity_witness :
    commit_align [] 5 ppS1 diagEdgeS2 =
      some [Ev.txnBegin, Ev.transform 0 0 (Obj.ofShape (some (ShapeVal.ofShape 1))),
            Ev.txnCommit, Ev.deactivate] := by
  have h := (commit_align_mixed_diagonal_identity [] 5 ppS1 diagEdgeS2 (by decide)).1
    ⟨10, 10⟩ ⟨⟨0, 0⟩, ⟨10, 7⟩⟩ rfl rfl rfl (by decide) (by decide)
  rw [h]
  decide

/-! ### Invariants of the feature search -/

/-- Invariant of the running best candidate of find_selection: it records the
query, any installed edge clips non-empty against the search box, any preset
snap point sits on a degenerate edge at itself, instance-bbox and
ruler-derived candidates carry no layer, and any layer is a visible one. -/
structure Inv (loc : Point) (box : Box) (lyrs : List Nat) (s : Selection) : Prop where
  loc_eq : s.location = loc
  box_eq : s.search_box = box
  clip_ok : ∀ e, s.edge = some e → (e.clipped box).isSome = true
  snap_degen : ∀ q, s.snap_point = some q → s.edge = some (Edge.mk q q)
  inst_layer : ∀ i, s.bbox_of_instance = some i → s.layer = none
  ann_layer : s.shape = none → s.layer = none
  layer_mem : ∀ l, s.layer = some l → l ∈ lyrs

/-- The shape every candidate handed to consider_edge_selection has. -/
structure CandOk (loc : Point) (box : Box) (lyrs : List Nat) (c : Selection) : Prop where
  loc_eq : c.location = loc
  box_eq : c.search_box = box
  edge_some : c.edge.isSome = true
  snap_degen : ∀ q, c.snap_point = some q → c.edge = some (Edge.mk q q)
  inst_layer : ∀ i, c.bbox_of_instance = some i → c.layer = none
  ann_layer : c.shape = none → c.layer = none
  layer_mem : ∀ l, c.layer = some l → l ∈ lyrs

lemma consider_pres {loc : Point} {box : Box} {lyrs : List Nat} {nearest c : Selection}
    (hn : Inv loc box lyrs nearest) (hc : CandOk loc box lyrs c) :
    ∃ n', consider_edge_selection loc box nearest c = some n' ∧ Inv loc box lyrs n' := by
  obtain ⟨e, he⟩ := Option.isSome_iff_exists.mp hc.edge_some
  rcases hclip : e.clipped box with _ | i
  · refine ⟨nearest, ?_, hn⟩
    simp [consider_edge_selection, he, hclip]
  · have hcInv : Inv loc box lyrs c :=
      ⟨hc.loc_eq, hc.box_eq,
       fun e' he' => by rw [he] at he'; injection he' with h; subst h; simp [hclip],
       hc.snap_degen, hc.inst_layer, hc.ann_layer, hc.layer_mem⟩
    rcases hne : nearest.edge with _ | ne
    · refine ⟨c, ?_, hcInv⟩
      simp [consider_edge_selection, he, hclip, hne]
    · obtain ⟨oi, hoi⟩ := Option.isSome_iff_exists.mp (hn.clip_ok ne hne)
      by_cases hlt : i.distance_abs loc < oi.distance_abs loc
      · refine ⟨c, ?_, hcInv⟩
        simp [consider_edge_selection, he, hclip, hne, hoi, hlt]
      · refine ⟨nearest, ?_, hn⟩
        simp [consider_edge_selection, he, hclip, hne, hoi, hlt]

lemma considerAll_pres {loc : Point} {box : Box} {lyrs : List Nat} :
    ∀ (cs : List Selection) (n : Selection), (∀ c ∈ cs, CandOk loc box lyrs c) →
      Inv loc box lyrs n →
      ∃ n', considerAll loc box cs n = some n' ∧ Inv loc box lyrs n'
  | [], n, _, hn => ⟨n, rfl, hn⟩
  | c :: cs, n, hcs, hn => by
    obtain ⟨n1, h1, hInv1⟩ := consider_pres hn (hcs c (by simp))
    obtain ⟨n', h', hInv'⟩ :=
      considerAll_pres cs n1 (fun x hx => hcs x (by simp [hx])) hInv1
    exact ⟨n', by simp [considerAll, h1, h'], hInv'⟩

lemma instCands_ok {loc : Point} {box : Box} {lyrs : List Nat} (it : InstItem) :
    ∀ c ∈ instCands loc box it, CandOk loc box lyrs c := by
  intro c hc
  simp only [instCands, List.mem_append, List.mem_map, List.mem_filter,
    List.mem_singleton] at hc
  rcases hc with ⟨e, _, rfl⟩ | rfl
  · exact ⟨rfl, rfl, rfl, by simp [instEdgeSel], fun _ _ => rfl, by simp [instEdgeSel],
           by simp [instEdgeSel]⟩
  · exact ⟨rfl, rfl, rfl, by simp [instMidSel], fun _ _ => rfl, by simp [instMidSel],
           by simp [instMidSel]⟩

lemma processInst_pres {loc : Point} {box : Box} {lyrs : List Nat} (it : InstItem)
    {n : Selection} (hn : Inv loc box lyrs n) :
    ∃ n', processInst loc box it n = some n' ∧ Inv loc box lyrs n' := by
  unfold processInst
  split
  · exact ⟨n, rfl, hn⟩
  · exact considerAll_pres _ n (instCands_ok it) hn

lemma shapeCands_ok {loc : Point} {box : Box} {lyrs : List Nat} {lyr : Nat}
    (hl : lyr ∈ lyrs) (sh : ShapeItem) (poly : Poly) :
    ∀ c ∈ shapeCands loc box lyr sh poly, CandOk loc box lyrs c := by
  intro c hc
  simp only [shapeCands, List.mem_append, List.mem_map, List.mem_singleton] at hc
  rcases hc with ⟨e, _, rfl⟩ | rfl
  · exact ⟨rfl, rfl, rfl, by simp [shapeEdgeSel], by simp [shapeEdgeSel],
           by simp [shapeEdgeSel],
           fun l hll => by simp [shapeEdgeSel] at hll; simpa [← hll] using hl⟩
  · exact ⟨rfl, rfl, rfl, by simp [shapeMidSel], by simp [shapeMidSel],
           by simp [shapeMidSel], by simp [shapeMidSel]⟩

lemma processShape_pres {loc : Point} {box : Box} {lyrs : List Nat} {lyr : Nat}
    (hl : lyr ∈ lyrs) (sh : ShapeItem) {n : Selection} (hn : Inv loc box lyrs n) :
    ∃ n', processShape loc box lyr sh n = some n' ∧ Inv loc box lyrs n' := by
  unfold processShape
  split
  · exact ⟨n, rfl, hn⟩
  · exact considerAll_pres _ n (shapeCands_ok hl sh _) hn

lemma annCands_ok {loc : Point} {box : Box} {lyrs : List Nat} (a : Ann) :
    ∀ c ∈ annCands loc box a, CandOk loc box lyrs c := by
  intro c hc
  cases a with
  | boxOutline b =>
    simp only [annCands, List.mem_map, List.mem_filter] at hc
    obtain ⟨e, _, rfl⟩ := hc
    exact ⟨rfl, rfl, rfl, by simp [annEdgeSel], by simp [annEdgeSel],
           fun _ => rfl, by simp [annEdgeSel]⟩
  | pointsOutline pts =>
    simp only [annCands, List.mem_map, List.mem_filter] at hc
    obtain ⟨p, _, rfl⟩ := hc
    exact ⟨rfl, rfl, rfl, by simp [annPointSel], by simp [annPointSel],
           fun _ => rfl, by simp [annPointSel]⟩

lemma cappedLoop_pres {α : Type} {loc : Point} {box : Box} {lyrs : List Nat}
    (f : α → Selection → Option Selection)
    (hf : ∀ a (n : Selection), Inv loc box lyrs n →
      ∃ n', f a n = some n' ∧ Inv loc box lyrs n') :
    ∀ (l : List α) (i : Nat) (n : Selection), Inv loc box lyrs n →
      ∃ n', cappedLoop f l i n = some n' ∧ Inv loc box lyrs n'
  | [], _, n, hn => ⟨n, rfl, hn⟩
  | a :: rest, i, n, hn => by
    obtain ⟨n1, h1, hInv1⟩ := hf a n hn
    by_cases hcap : iteration_limit ≤ i + 1
    · exact ⟨n1, by simp [cappedLoop, h1, hcap], hInv1⟩
    · obtain ⟨n', h', hInv'⟩ := cappedLoop_pres f hf rest (i + 1) n1 hInv1
      exact ⟨n', by simp [cappedLoop, h1, hcap, h'], hInv'⟩

lemma layersLoop_pres {loc : Point} {box : Box} {lyrs : List Nat} :
    ∀ (Ls : List LayerPass) (n : Selection), (∀ L ∈ Ls, L.lyr ∈ lyrs) →
      Inv loc box lyrs n →
      ∃ n', layersLoop loc box Ls n = some n' ∧ Inv loc box lyrs n'
  | [], n, _, hn => ⟨n, rfl, hn⟩
  | L :: rest, n, hLs, hn => by
    obtain ⟨n1, h1, hInv1⟩ :=
      cappedLoop_pres (processShape loc box L.lyr)
        (fun sh m hm => processShape_pres (hLs L (by simp)) sh hm) L.shapes 0 n hn
    obtain ⟨n', h', hInv'⟩ :=
      layersLoop_pres rest n1 (fun L' hL' => hLs L' (by simp [hL'])) hInv1
    exact ⟨n', by simp [layersLoop, h1, h'], hInv'⟩

lemma annLoop_pres {loc : Point} {box : Box} {lyrs : List Nat} :
    ∀ (as0 : List Ann) (n : Selection), Inv loc box lyrs n →
      ∃ n', annLoop loc box as0 n = some n' ∧ Inv loc box lyrs n'
  | [], n, hn => ⟨n, rfl, hn⟩
  | a :: rest, n, hn => by
    obtain ⟨n1, h1, hInv1⟩ := considerAll_pres _ n (annCands_ok a) hn
    obtain ⟨n', h', hInv'⟩ := annLoop_pres rest n1 hInv1
    exact ⟨n', by simp [annLoop, h1, h'], hInv'⟩

lemma initSelection_inv (loc : Point) (box : Box) (lyrs : List Nat) :
    Inv loc box lyrs (initSelection loc box) :=
  ⟨rfl, rfl, by simp [initSelection], by simp [initSelection], by simp [initSelection],
   fun _ => rfl, by simp [initSelection]⟩

/-- Decomposition of a successful find_selection run: the accumulator before
refinement satisfies the invariant, and the returned feature is that
accumulator with the snap point set exactly when the nearest edge point lies
inside the search box. -/
lemma find_selection_cases {scene : Scene} {loc : Point} {md : Int} {cr : Bool}
    {sel : Selection}
    (h : find_selection scene loc md cr = some (some sel)) :
    ∃ n3 e np,
      Inv loc (searchBoxOf loc md) (scene.layers.map LayerPass.lyr) n3 ∧
      n3.edge = some e ∧
      find_nearest_edge_point loc e = some np ∧
      (((searchBoxOf loc md).contains np = true ∧ sel = { n3 with snap_point := some np }) ∨
       ((searchBoxOf loc md).contains np = false ∧ sel = n3)) := by
  unfold find_selection at h
  by_cases ht : scene.topHidden
  · simp [ht] at h
  rw [if_neg ht] at h
  have h0 := initSelection_inv loc (searchBoxOf loc md) (scene.layers.map LayerPass.lyr)
  have step1 : ∃ n1, (if scene.hierVisible
      then cappedLoop (processInst loc (searchBoxOf loc md)) scene.insts 0
             (initSelection loc (searchBoxOf loc md))
      else some (initSelection loc (searchBoxOf loc md))) = some n1 ∧
      Inv loc (searchBoxOf loc md) (scene.layers.map LayerPass.lyr) n1 := by
    by_cases hv : scene.hierVisible
    · rw [if_pos hv]
      exact cappedLoop_pres _ (fun it m hm => processInst_pres it hm) scene.insts 0 _ h0
    · exact ⟨_, by rw [if_neg hv], h0⟩
  obtain ⟨n1, e1, hInv1⟩ := step1
  rw [e1] at h
  simp only [Option.some_bind] at h
  have step2 : ∃ n2, (if scene.hierVisible
      then layersLoop loc (searchBoxOf loc md) scene.layers n1
      else some n1) = some n2 ∧
      Inv loc (searchBoxOf loc md) (scene.layers.map LayerPass.lyr) n2 := by
    by_cases hv : scene.hierVisible
    · rw [if_pos hv]
      exact layersLoop_pres scene.layers n1
        (fun L hL => List.mem_map.mpr ⟨L, hL, rfl⟩) hInv1
    · exact ⟨n1, by rw [if_neg hv], hInv1⟩
  obtain ⟨n2, e2, hInv2⟩ := step2
  rw [e2] at h
  simp only [Option.some_bind] at h
  have step3 : ∃ n3, (if cr then annLoop loc (searchBoxOf loc md) scene.rulers n2
      else some n2) = some n3 ∧
      Inv loc (searchBoxOf loc md) (scene.layers.map LayerPass.lyr) n3 := by
    by_cases hcr : cr
    · rw [if_pos hcr]
      exact annLoop_pres scene.rulers n2 hInv2
    · exact ⟨n2, by rw [if_neg hcr], hInv2⟩
  obtain ⟨n3, e3, hInv3⟩ := step3
  rw [e3] at h
  simp only [Option.some_bind] at h
  unfold finalize at h
  split at h
  · simp at h
  rename_i e hedge
  split at h
  · simp at h
  rename_i np hnp
  refine ⟨n3, e, np, hInv3, hedge, hnp, ?_⟩
  split at h
  · rename_i hcont
    left
    exact ⟨hcont, by injection h with h'; injection h' with h''; exact h''.symm⟩
  · rename_i hcont
    right
    refine ⟨by simpa using hcont, by injection h with h'; injection h' with h''; exact h''.symm⟩

lemma find_nearest_degen {loc q np : Point}
    (h : find_nearest_edge_point loc (Edge.mk q q) = some np) : np = q := by
  have hc : edge_center (Edge.mk q q) = q := by
    cases q
    simp [edge_center, halfway_self]
  unfold find_nearest_edge_point at h
  rw [hc] at h
  simp only [List.foldl_cons, List.foldl_nil] at h
  split_ifs at h <;> simp_all

lemma degen_clip_contains {q : Point} {b : Box}
    (h : ((Edge.mk q q).clipped b).isSome = true) : b.contains q = true := by
  simp only [Edge.clipped, Edge.dx, Edge.dy, axisRange, sub_self] at h
  by_cases hx : b.left ≤ q.x ∧ q.x ≤ b.right
  · by_cases hy : b.bottom ≤ q.y ∧ q.y ≤ b.top
    · simp [Box.contains]
      omega
    · rw [if_pos hx, if_neg hy] at h
      simp at h
  · rw [if_neg hx] at h
    simp at h

/-- C2: a returned feature's snap point, when present, lies inside its search
box; and when the nearest point of the winning edge falls outside the search
box the returned feature has no snap point (it stays edge-like). -/
theorem find_selection_snap_point_containment (scene : Scene) (loc : Point) (md : Int)
    (cr : Bool) (sel : Selection)
    (h : find_selection scene loc md cr = some (some sel)) :
    (∀ q, sel.snap_point = some q → sel.search_box.contains q = true) ∧
    (∀ e np, sel.edge = some e → find_nearest_edge_point sel.location e = some np →
      sel.search_box.contains np = false → sel.snap_point = none) := by
  obtain ⟨n3, e, np, hInv, hedge, hnp, hcase⟩ := find_selection_cases h
  rcases hcase with ⟨hcont, hsel⟩ | ⟨hcont, hsel⟩
  · constructor
    · intro q hq
      rw [hsel] at hq
      have hq' : some np = some q := hq
      injection hq' with hq''
      subst hq''
      have hbox : sel.search_box = n3.search_box := by rw [hsel]
      rw [hbox, hInv.box_eq]
      exact hcont
    · intro e' np' he' hnp' hcont'
      rw [hsel] at he' hnp' hcont'
      have he2 : n3.edge = some e' := he'
      rw [hedge] at he2
      injection he2 with he3
      subst he3
      have hnp2 : find_nearest_edge_point n3.location e = some np' := hnp'
      rw [hInv.loc_eq, hnp] at hnp2
      injection hnp2 with hnp3
      subst hnp3
      have hcont2 : n3.search_box.contains np = false := hcont'
      rw [hInv.box_eq, hcont] at hcont2
      cases hcont2
  · constructor
    · intro q hq
      rw [hsel] at hq ⊢
      have hdeg : n3.edge = some (Edge.mk q q) := hInv.snap_degen q hq
      have hin : (searchBoxOf loc md).contains q = true :=
        degen_clip_contains (hInv.clip_ok (Edge.mk q q) hdeg)
      rw [hInv.box_eq]
      exact hin
    · intro e' np' he' hnp' hcont'
      rw [hsel] at he' hnp' hcont' ⊢
      rcases hsnap : n3.snap_point with _ | q
      · rfl
      exfalso
      have hdeg : n3.edge = some (Edge.mk q q) := hInv.snap_degen q hsnap
      rw [hdeg] at he'
      injection he' with he2
      subst he2
      rw [hInv.loc_eq] at hnp'
      have hq : np' = q := find_nearest_degen hnp'
      have hcq : (searchBoxOf loc md).contains np' = true := by
        rw [hq]
        exact degen_clip_contains (hInv.clip_ok (Edge.mk q q) hdeg)
      rw [hInv.box_eq, hcq] at hcont'
      cases hcont'

def wScene : Scene := ⟨false, false, [], [], [Ann.pointsOutline [⟨3, 4⟩]]⟩

def wSel : Selection :=
  ⟨⟨0, 0⟩, ⟨-10, -10, 10, 10⟩, some ⟨⟨3, 4⟩, ⟨3, 4⟩⟩, [], none, none, none, some ⟨3, 4⟩⟩

/-- Witness for C2 on a concrete query returning a ruler point feature. -/
theorem find_selection_snap_point_containment_witness :
    find_selection wScene ⟨0, 0⟩ 10 true = some (some wSel) ∧
    wSel.search_box.contains ⟨3, 4⟩ = true := by
  refine ⟨by decide, ?_⟩
  have h := find_selection_snap_point_containment wScene ⟨0, 0⟩ 10 true wSel (by decide)
  exact h.1 ⟨3, 4⟩ rfl

/-- C10: every returned feature has a non-null edge whose clip against the
feature's own search box (the query's search box) is non-empty. -/
theorem find_selection_edge_clip_nonempty (scene : Scene) (loc : Point) (md : Int)
    (cr : Bool) (sel : Selection)
    (h : find_selection scene loc md cr = some (some sel)) :
    sel.edge.isSome = true ∧
    (∀ e, sel.edge = some e → (e.clipped sel.search_box).isSome = true) ∧
    sel.search_box = searchBoxOf loc md := by
  obtain ⟨n3, e, np, hInv, hedge, hnp, hcase⟩ := find_selection_cases h
  rcases hcase with ⟨_, hsel⟩ | ⟨_, hsel⟩
  · refine ⟨by rw [hsel]; simp [hedge], fun e' he' => ?_, by rw [hsel]; exact hInv.box_eq⟩
    rw [hsel] at he' ⊢
    have he2 : n3.edge = some e' := he'
    have hbx : ({ n3 with snap_point := some np } : Selection).search_box = searchBoxOf loc md :=
      hInv.box_eq
    rw [hbx]
    exact hInv.clip_ok e' he2
  · refine ⟨by rw [hsel]; simp [hedge], fun e' he' => ?_, by rw [hsel]; exact hInv.box_eq⟩
    rw [hsel] at he' ⊢
    rw [hInv.box_eq]
    exact hInv.clip_ok e' he'

/-- Witness for C10. -/
theorem find_selection_edge_clip_nonempty_witness :
    ((Edge.mk ⟨3, 4⟩ ⟨3, 4⟩).clipped wSel.search_box).isSome = true := by
  have h := find_selection_edge_clip_nonempty wScene ⟨0, 0⟩ 10 true wSel (by decide)
  exact h.2.1 ⟨⟨3, 4⟩, ⟨3, 4⟩⟩ rfl

/-- C9 (amended): the layer field of a returned feature is absent for
instance-bbox-derived and ruler-derived features, and any present layer is one
of the visible layers; a polygon edge candidate of the shape pass carries its
layer's id, but the polygon midpoint candidate is registered with no layer. -/
theorem find_selection_layer_presence (scene : Scene) (loc : Point) (md : Int)
    (cr : Bool) (sel : Selection)
    (h : find_selection scene loc md cr = some (some sel)) :
    (∀ i, sel.bbox_of_instance = some i → sel.layer = none) ∧
    (sel.shape = none → sel.layer = none) ∧
    (∀ l, sel.layer = some l → l ∈ scene.layers.map LayerPass.lyr) ∧
    (∀ lyr sh e, (shapeEdgeSel loc (searchBoxOf loc md) lyr sh e).layer = some lyr) ∧
    (∀ sh m, (shapeMidSel loc (searchBoxOf loc md) sh m).layer = none) := by
  obtain ⟨n3, e, np, hInv, hedge, hnp, hcase⟩ := find_selection_cases h
  rcases hcase with ⟨_, hsel⟩ | ⟨_, hsel⟩ <;> rw [hsel] <;>
    exact ⟨hInv.inst_layer, hInv.ann_layer, hInv.layer_mem,
           fun _ _ _ => rfl, fun _ _ => rfl⟩

def cexPoly : Poly := ⟨boxEdges ⟨-100, -100, 100, 100⟩, ⟨-100, -100, 100, 100⟩⟩

def cexScene : Scene := ⟨false, true, [], [⟨5, [⟨7, [], some cexPoly⟩]⟩], []⟩

def cexSel : Selection :=
  ⟨⟨0, 0⟩, ⟨-10, -10, 10, 10⟩, some ⟨⟨0, 0⟩, ⟨0, 0⟩⟩, [],
   some (ShapeVal.ofShape 7), none, none, some ⟨0, 0⟩⟩

/-- Counterexample for C9 as stated: a feature derived from a polygon shape
found on visible layer 5 — its bounding-box midpoint candidate — is returned
with no layer id, because the source registers the shape midpoint candidate
with layer=None. -/
theorem find_selection_shape_midpoint_layer_cex :
    find_selection cexScene ⟨0, 0⟩ 10 false = some (some cexSel) ∧
    cexSel.shape = some (ShapeVal.ofShape 7) ∧
    cexSel.layer = none := by
  decide

/-- Witness for C9. -/
theorem find_selection_layer_presence_witness :
    wSel.layer = none := by
  have h := find_selection_layer_presence wScene ⟨0, 0⟩ 10 true wSel (by decide)
  exact h.2.1 rfl

/-! ### C8: the iteration cap -/

lemma cappedLoop_take {α : Type} (f : α → Selection → Option Selection) :
    ∀ (l : List α) (i : Nat) (n : Selection), i < iteration_limit →
      cappedLoop f (l.take (iteration_limit - i)) i n = cappedLoop f l i n
  | [], i, n, _ => by simp
  | a :: rest, i, n, hi => by
    have hsub : iteration_limit - i = (iteration_limit - (i + 1)) + 1 := by omega
    rw [hsub, List.take_succ_cons]
    rcases hf : f a n with _ | n'
    · simp [cappedLoop, hf]
    · by_cases hcap : iteration_limit ≤ i + 1
      · simp [cappedLoop, hf, hcap]
      · simp only [cappedLoop, hf, if_neg hcap]
        exact cappedLoop_take f rest (i + 1) n' (by omega)

lemma cappedLoop_take_limit {α : Type} (f : α → Selection → Option Selection)
    (l : List α) (n : Selection) :
    cappedLoop f (l.take iteration_limit) 0 n = cappedLoop f l 0 n := by
  have h := cappedLoop_take f l 0 n (by norm_num [iteration_limit])
  simpa using h

lemma layersLoop_trunc (loc : Point) (box : Box) :
    ∀ (Ls : List LayerPass) (n : Selection),
      layersLoop loc box
        (Ls.map (fun L => ⟨L.lyr, L.shapes.take iteration_limit⟩)) n =
      layersLoop loc box Ls n
  | [], _ => rfl
  | L :: rest, n => by
    simp only [List.map_cons, layersLoop]
    rw [cappedLoop_take_limit]
    rcases cappedLoop (processShape loc box L.lyr) L.shapes 0 n with _ | n'
    · rfl
    · exact layersLoop_trunc loc box rest n'

/-- C8: the 1000-element cap applies independently to the instance pass and to
each layer's shape pass — find_selection computes the same answer (result,
no-result, or exception) as on the scene truncated to the first 1000 iterated
instances and the first 1000 iterated shapes per visible layer; rulers are not
capped. -/
theorem find_selection_iteration_cap (scene : Scene) (loc : Point) (md : Int)
    (cr : Bool) :
    find_selection scene loc md cr =
      find_selection
        ⟨scene.topHidden, scene.hierVisible, scene.insts.take iteration_limit,
         scene.layers.map (fun L => ⟨L.lyr, L.shapes.take iteration_limit⟩),
         scene.rulers⟩ loc md cr := by
  unfold find_selection
  simp only [cappedLoop_take_limit, layersLoop_trunc]

end AlignTool
